import Mathlib

/-!
Verification of the DGA Withdrawal Planner core: the year-by-year capital
simulation `simulate_withdrawal` and the bisection solver
`auto_calc_withdrawal`, embedded over exact rationals.  Machine floats of the
source are modelled as `ℚ`; the one fallible operation (division by
`1 - dividend_tax`, which raises a `ZeroDivisionError` in the source when the
divisor is zero) is modelled with `Except`.
-/

namespace DGA

/-- The parameters of `simulate_withdrawal` (source lines 46-47), one field
per positional argument.  `years` is an integer: the source iterates
`range(1, years + 1)`, which is empty when `years ≤ 0`. -/
structure Params where
  start_capital : ℚ
  annual_return : ℚ
  inflation : ℚ
  net_withdrawal : ℚ
  tax_threshold1 : ℚ
  tax_rate1 : ℚ
  tax_rate2 : ℚ
  dividend_tax : ℚ
  years : ℤ
deriving DecidableEq, Repr

/-- One row of the `data` list built by `simulate_withdrawal`
(source lines 53-61 and 89-97). -/
structure YearRecord where
  year : ℤ
  profit : ℚ
  profit_tax : ℚ
  dividend_tax : ℚ
  gross_withdrawal : ℚ
  net_withdrawal : ℚ
  end_capital : ℚ
deriving DecidableEq, Repr

instance : Inhabited YearRecord := ⟨⟨0, 0, 0, 0, 0, 0, 0⟩⟩

instance {ε α : Type} [DecidableEq ε] [DecidableEq α] : DecidableEq (Except ε α) :=
  fun a b =>
    match a, b with
    | .ok x, .ok y =>
      if h : x = y then .isTrue (by rw [h])
      else .isFalse (by intro hc; cases hc; exact h rfl)
    | .error x, .error y =>
      if h : x = y then .isTrue (by rw [h])
      else .isFalse (by intro hc; cases hc; exact h rfl)
    | .ok _, .error _ => .isFalse (by intro hc; cases hc)
    | .error _, .ok _ => .isFalse (by intro hc; cases hc)

/-- The runtime failure the source can raise: Python's `ZeroDivisionError`
from `adjusted_net_withdrawal / (1 - dividend_tax)` at source line 75. -/
inductive SimError where
  | zeroDivision
deriving DecidableEq, Repr

/-- The progressive profit tax of source lines 68-71: two brackets with a
single threshold, computed on the profit. -/
def progressive_tax (p : Params) (profit : ℚ) : ℚ :=
  if profit ≤ p.tax_threshold1 then profit * p.tax_rate1
  else p.tax_threshold1 * p.tax_rate1 + (profit - p.tax_threshold1) * p.tax_rate2

/-- The body of the `for year in range(1, years + 1)` loop of
`simulate_withdrawal` (source lines 63-100), as structural recursion on the
number of remaining iterations.  `year` is the current loop index, `capital`
the running capital.  Returns the records appended by the remaining
iterations, the `capital_depleted` flag and the final `capital`. -/
def simulate_loop (p : Params) (current_year : ℤ) :
    ℕ → ℕ → ℚ → Except SimError (List YearRecord × Bool × ℚ)
  | _, 0, capital => .ok ([], false, capital)
  | year, n + 1, capital =>
    let profit := capital * p.annual_return
    let profit_tax := progressive_tax p profit
    let adjusted_net_withdrawal := p.net_withdrawal * (1 + p.inflation) ^ (year - 1)
    if 1 - p.dividend_tax = 0 then .error .zeroDivision
    else
      let gross_withdrawal := adjusted_net_withdrawal / (1 - p.dividend_tax)
      let dividend_paid := gross_withdrawal * p.dividend_tax
      let projected_capital := capital + profit - profit_tax - gross_withdrawal
      if projected_capital < 0 then
        .ok ([{ year := current_year + year
                profit := profit
                profit_tax := profit_tax
                dividend_tax := (gross_withdrawal + projected_capital) * p.dividend_tax
                gross_withdrawal := gross_withdrawal + projected_capital
                net_withdrawal := (gross_withdrawal + projected_capital) * (1 - p.dividend_tax)
                end_capital := 0 }], true, 0)
      else
        match simulate_loop p current_year (year + 1) n projected_capital with
        | .error e => .error e
        | .ok (rest, depleted, final) =>
          .ok ({ year := current_year + year
                 profit := profit
                 profit_tax := profit_tax
                 dividend_tax := dividend_paid
                 gross_withdrawal := gross_withdrawal
                 net_withdrawal := adjusted_net_withdrawal
                 end_capital := projected_capital } :: rest, depleted, final)

/-- `simulate_withdrawal` (source lines 46-103): the year-0 record followed by
the loop's records; returns the record list, the depletion flag and the final
capital, or the runtime error the source would raise. -/
def simulate_withdrawal (p : Params) (current_year : ℤ) :
    Except SimError (List YearRecord × Bool × ℚ) :=
  let year0 : YearRecord :=
    { year := current_year, profit := 0, profit_tax := 0, dividend_tax := 0
      gross_withdrawal := 0, net_withdrawal := 0, end_capital := p.start_capital }
  match simulate_loop p current_year 1 p.years.toNat p.start_capital with
  | .error e => .error e
  | .ok (rest, depleted, capital) => .ok (year0 :: rest, depleted, capital)

/-- The record list of a successful simulation (empty on error). -/
def records (p : Params) (current_year : ℤ) : List YearRecord :=
  match simulate_withdrawal p current_year with
  | .ok (rs, _, _) => rs
  | .error _ => []

/-- The depletion flag of a successful simulation (`false` on error). -/
def runDepleted (p : Params) (current_year : ℤ) : Bool :=
  match simulate_withdrawal p current_year with
  | .ok (_, d, _) => d
  | .error _ => false

/-- The final capital of a successful simulation (`0` on error). -/
def finalCapital (p : Params) (current_year : ℤ) : ℚ :=
  match simulate_withdrawal p current_year with
  | .ok (_, _, c) => c
  | .error _ => 0

/-- Whether the simulation returns normally. -/
def simOk (p : Params) (current_year : ℤ) : Bool :=
  match simulate_withdrawal p current_year with
  | .ok _ => true
  | .error _ => false

/-- `p` with its withdrawal argument replaced, as the solver passes
`test_withdrawal` in place of `net_withdrawal` (source lines 113-116). -/
def withW (p : Params) (w : ℚ) : Params :=
  { p with net_withdrawal := w }

/-- The `while high - low > tol` bisection loop of the automatic-withdrawal
calculation (source lines 109-120), with `tol = 1`, as recursion on a fuel
bound; `none` means the fuel ran out before the loop exited (or a simulation
raised).  Returns the final `(low, high)` pair. -/
def solver_loop (p : Params) (current_year : ℤ) :
    ℚ → ℚ → ℕ → Option (ℚ × ℚ)
  | _, _, 0 => none
  | low, high, n + 1 =>
    if 1 < high - low then
      let test_withdrawal := (low + high) / 2
      match simulate_withdrawal (withW p test_withdrawal) current_year with
      | .error _ => none
      | .ok (_, _, end_capital) =>
        if 0 < end_capital then solver_loop p current_year test_withdrawal high n
        else solver_loop p current_year low test_withdrawal n
    else some (low, high)

/-- The automatic net-withdrawal calculation (source lines 108-121): bisection
over `[0, start_capital * 2]`, returning `(low + high) / 2` for the final
bracket. -/
def auto_calc_withdrawal (p : Params) (current_year : ℤ) (fuel : ℕ) : Option ℚ :=
  (solver_loop p current_year 0 (p.start_capital * 2) fuel).map
    (fun s => (s.1 + s.2) / 2)

/-! ### Step equations for the simulation loop -/

lemma simulate_loop_zero (p : Params) (cy : ℤ) (year : ℕ) (c : ℚ) :
    simulate_loop p cy year 0 c = .ok ([], false, c) := rfl

lemma simulate_loop_err (p : Params) (cy : ℤ) (year n : ℕ) (c : ℚ)
    (hd : 1 - p.dividend_tax = 0) :
    simulate_loop p cy year (n + 1) c = .error .zeroDivision := by
  simp only [simulate_loop, hd, if_true, reduceIte]

lemma simulate_loop_clamp (p : Params) (cy : ℤ) (year n : ℕ) (c gross proj : ℚ)
    (hd : 1 - p.dividend_tax ≠ 0)
    (hg : gross = p.net_withdrawal * (1 + p.inflation) ^ (year - 1) / (1 - p.dividend_tax))
    (hp : proj = c + c * p.annual_return - progressive_tax p (c * p.annual_return) - gross)
    (hneg : proj < 0) :
    simulate_loop p cy year (n + 1) c =
      .ok ([{ year := cy + year
              profit := c * p.annual_return
              profit_tax := progressive_tax p (c * p.annual_return)
              dividend_tax := (gross + proj) * p.dividend_tax
              gross_withdrawal := gross + proj
              net_withdrawal := (gross + proj) * (1 - p.dividend_tax)
              end_capital := 0 }], true, 0) := by
  subst hg hp
  simp only [simulate_loop]
  rw [if_neg hd, if_pos hneg]

lemma simulate_loop_cont (p : Params) (cy : ℤ) (year n : ℕ) (c gross proj : ℚ)
    (hd : 1 - p.dividend_tax ≠ 0)
    (hg : gross = p.net_withdrawal * (1 + p.inflation) ^ (year - 1) / (1 - p.dividend_tax))
    (hp : proj = c + c * p.annual_return - progressive_tax p (c * p.annual_return) - gross)
    (hpos : ¬ proj < 0) :
    simulate_loop p cy year (n + 1) c =
      match simulate_loop p cy (year + 1) n proj with
      | .error e => .error e
      | .ok (rest, depleted, final) =>
        .ok ({ year := cy + year
               profit := c * p.annual_return
               profit_tax := progressive_tax p (c * p.annual_return)
               dividend_tax := gross * p.dividend_tax
               gross_withdrawal := gross
               net_withdrawal := p.net_withdrawal * (1 + p.inflation) ^ (year - 1)
               end_capital := proj } :: rest, depleted, final) := by
  subst hg hp
  simp only [simulate_loop]
  rw [if_neg hd, if_neg hpos]

/-! ### Non-negativity of the running capital -/

lemma simulate_loop_nonneg (p : Params) (cy : ℤ) :
    ∀ (n year : ℕ) (c : ℚ), 0 ≤ c → ∀ rs d f,
      simulate_loop p cy year n c = .ok (rs, d, f) →
      0 ≤ f ∧ ∀ r ∈ rs, 0 ≤ r.end_capital := by
  intro n
  induction n with
  | zero =>
    intro year c hc rs d f h
    rw [simulate_loop_zero] at h
    cases h
    exact ⟨hc, by simp⟩
  | succ n ih =>
    intro year c hc rs d f h
    by_cases hd : 1 - p.dividend_tax = 0
    · rw [simulate_loop_err p cy year n c hd] at h
      cases h
    · set gross := p.net_withdrawal * (1 + p.inflation) ^ (year - 1) / (1 - p.dividend_tax)
        with hg
      set proj := c + c * p.annual_return - progressive_tax p (c * p.annual_return) - gross
        with hp
      by_cases hneg : proj < 0
      · rw [simulate_loop_clamp p cy year n c gross proj hd hg hp hneg] at h
        cases h
        refine ⟨le_refl 0, ?_⟩
        intro r hr
        simp only [List.mem_singleton] at hr
        subst hr
        exact le_refl 0
      · rw [simulate_loop_cont p cy year n c gross proj hd hg hp hneg] at h
        push_neg at hneg
        cases hrec : simulate_loop p cy (year + 1) n proj with
        | error e => rw [hrec] at h; cases h
        | ok out =>
          obtain ⟨rest, dep, fin⟩ := out
          rw [hrec] at h
          simp only [Except.ok.injEq, Prod.mk.injEq] at h
          obtain ⟨hrs, hdp, hf⟩ := h
          subst hrs hdp hf
          obtain ⟨h1, h2⟩ := ih (year + 1) proj hneg rest dep fin hrec
          refine ⟨h1, ?_⟩
          intro r hr
          rcases List.mem_cons.mp hr with hr | hr
          · subst hr; exact hneg
          · exact h2 r hr

lemma finalCapital_nonneg (p : Params) (cy : ℤ) (hsc : 0 ≤ p.start_capital) :
    0 ≤ finalCapital p cy := by
  unfold finalCapital simulate_withdrawal
  cases hrec : simulate_loop p cy 1 p.years.toNat p.start_capital with
  | error e => simp
  | ok out =>
    obtain ⟨rest, dep, fin⟩ := out
    simpa using (simulate_loop_nonneg p cy _ 1 p.start_capital hsc rest dep fin hrec).1

/-- Claim C1: for every parameter set with `start_capital ≥ 0`, every record
of a successful simulation has a non-negative end capital. -/
theorem c1_end_capital_nonneg (p : Params) (cy : ℤ)
    (hsc : 0 ≤ p.start_capital)
    (rs : List YearRecord) (d : Bool) (f : ℚ)
    (h : simulate_withdrawal p cy = .ok (rs, d, f)) :
    ∀ r ∈ rs, 0 ≤ r.end_capital := by
  unfold simulate_withdrawal at h
  cases hrec : simulate_loop p cy 1 p.years.toNat p.start_capital with
  | error e => rw [hrec] at h; cases h
  | ok out =>
    obtain ⟨rest, dep, fin⟩ := out
    rw [hrec] at h
    simp only [Except.ok.injEq, Prod.mk.injEq] at h
    obtain ⟨hrs, hdp, hf⟩ := h
    subst hrs hdp hf
    intro r hr
    rcases List.mem_cons.mp hr with hr | hr
    · subst hr; exact hsc
    · exact (simulate_loop_nonneg p cy _ 1 p.start_capital hsc rest dep fin hrec).2 r hr

theorem c1_witness :
    (0:ℚ) ≤ (⟨100, 0, 0, 60, 0, 0, 0, 0, 5⟩ : Params).start_capital ∧
    simulate_withdrawal ⟨100, 0, 0, 60, 0, 0, 0, 0, 5⟩ 2025 =
      .ok ([⟨2025, 0, 0, 0, 0, 0, 100⟩, ⟨2026, 0, 0, 0, 60, 60, 40⟩,
            ⟨2027, 0, 0, 0, 40, 40, 0⟩], true, 0) ∧
    (0:ℚ) ≤ (⟨2026, 0, 0, 0, 60, 60, 40⟩ : YearRecord).end_capital :=
  ⟨by norm_num,
   by norm_num [simulate_withdrawal, simulate_loop, progressive_tax],
   c1_end_capital_nonneg ⟨100, 0, 0, 60, 0, 0, 0, 0, 5⟩ 2025 (by norm_num)
     [⟨2025, 0, 0, 0, 0, 0, 100⟩, ⟨2026, 0, 0, 0, 60, 60, 40⟩, ⟨2027, 0, 0, 0, 40, 40, 0⟩]
     true 0 (by norm_num [simulate_withdrawal, simulate_loop, progressive_tax])
     ⟨2026, 0, 0, 0, 60, 60, 40⟩ (by simp)⟩

/-- Claim C2: when the tentative end capital of a period is negative, the
record appended for that period keeps the original `profit` and `profit_tax`,
has `gross_withdrawal` reduced by exactly the shortfall to
`capital + profit - profit_tax`, has `net_withdrawal` and `dividend_tax`
recomputed from the reduced gross figure, has `end_capital` exactly `0`, the
depletion flag is set, and it is the only (hence last) record of the remaining
loop: no later period is simulated. -/
theorem c2_depletion_clamp (p : Params) (cy : ℤ) (year n : ℕ) (c gross proj : ℚ)
    (hd : 1 - p.dividend_tax ≠ 0)
    (hg : gross = p.net_withdrawal * (1 + p.inflation) ^ (year - 1) / (1 - p.dividend_tax))
    (hp : proj = c + c * p.annual_return - progressive_tax p (c * p.annual_return) - gross)
    (hneg : proj < 0) :
    simulate_loop p cy year (n + 1) c =
      .ok ([{ year := cy + year
              profit := c * p.annual_return
              profit_tax := progressive_tax p (c * p.annual_return)
              dividend_tax :=
                (c + c * p.annual_return - progressive_tax p (c * p.annual_return))
                  * p.dividend_tax
              gross_withdrawal :=
                c + c * p.annual_return - progressive_tax p (c * p.annual_return)
              net_withdrawal :=
                (c + c * p.annual_return - progressive_tax p (c * p.annual_return))
                  * (1 - p.dividend_tax)
              end_capital := 0 }], true, 0) := by
  rw [simulate_loop_clamp p cy year n c gross proj hd hg hp hneg]
  have hgp : gross + proj
      = c + c * p.annual_return - progressive_tax p (c * p.annual_return) := by
    rw [hp]; ring
  rw [hgp]

theorem c2_witness :
    (1 - (⟨100, 0, 0, 200, 0, 0, 0, 0, 5⟩ : Params).dividend_tax ≠ 0) ∧
    ((200:ℚ) = (⟨100, 0, 0, 200, 0, 0, 0, 0, 5⟩ : Params).net_withdrawal
        * (1 + (⟨100, 0, 0, 200, 0, 0, 0, 0, 5⟩ : Params).inflation) ^ (1 - 1)
        / (1 - (⟨100, 0, 0, 200, 0, 0, 0, 0, 5⟩ : Params).dividend_tax)) ∧
    ((-100:ℚ) = 100 + 100 * (0:ℚ)
        - progressive_tax ⟨100, 0, 0, 200, 0, 0, 0, 0, 5⟩ (100 * 0) - 200) ∧
    ((-100:ℚ) < 0) ∧
    simulate_loop ⟨100, 0, 0, 200, 0, 0, 0, 0, 5⟩ 2025 1 1 100 =
      .ok ([⟨2026, 0, 0, 0, 100, 100, 0⟩], true, 0) := by
  refine ⟨by norm_num, by norm_num [progressive_tax], by norm_num [progressive_tax],
    by norm_num, ?_⟩
  have h := c2_depletion_clamp ⟨100, 0, 0, 200, 0, 0, 0, 0, 5⟩ 2025 1 0 100 200 (-100)
    (by norm_num) (by norm_num [progressive_tax]) (by norm_num [progressive_tax])
    (by norm_num)
  rw [h]
  norm_num [progressive_tax]

/-! ### Per-record properties of the loop output -/

lemma simulate_loop_profit_tax (p : Params) (cy : ℤ) :
    ∀ (n year : ℕ) (c : ℚ) (rs : List YearRecord) (d : Bool) (f : ℚ),
      simulate_loop p cy year n c = .ok (rs, d, f) →
      ∀ r ∈ rs, r.profit_tax = progressive_tax p r.profit := by
  intro n
  induction n with
  | zero =>
    intro year c rs d f h
    rw [simulate_loop_zero] at h
    cases h
    simp
  | succ n ih =>
    intro year c rs d f h
    by_cases hd : 1 - p.dividend_tax = 0
    · rw [simulate_loop_err p cy year n c hd] at h; cases h
    · set gross := p.net_withdrawal * (1 + p.inflation) ^ (year - 1) / (1 - p.dividend_tax)
        with hg
      set proj := c + c * p.annual_return - progressive_tax p (c * p.annual_return) - gross
        with hp
      by_cases hneg : proj < 0
      · rw [simulate_loop_clamp p cy year n c gross proj hd hg hp hneg] at h
        cases h
        intro r hr
        simp only [List.mem_singleton] at hr
        subst hr
        rfl
      · rw [simulate_loop_cont p cy year n c gross proj hd hg hp hneg] at h
        cases hrec : simulate_loop p cy (year + 1) n proj with
        | error e => rw [hrec] at h; cases h
        | ok out =>
          obtain ⟨rest, dep, fin⟩ := out
          rw [hrec] at h
          simp only [Except.ok.injEq, Prod.mk.injEq] at h
          obtain ⟨hrs, hdp, hf⟩ := h
          subst hrs hdp hf
          intro r hr
          rcases List.mem_cons.mp hr with hr | hr
          · subst hr; rfl
          · exact ih (year + 1) proj rest dep fin hrec r hr

lemma simulate_loop_net_gross (p : Params) (cy : ℤ) :
    ∀ (n year : ℕ) (c : ℚ) (rs : List YearRecord) (d : Bool) (f : ℚ),
      simulate_loop p cy year n c = .ok (rs, d, f) →
      ∀ r ∈ rs,
        r.net_withdrawal = r.gross_withdrawal * (1 - p.dividend_tax) ∧
        r.net_withdrawal + r.dividend_tax = r.gross_withdrawal := by
  intro n
  induction n with
  | zero =>
    intro year c rs d f h
    rw [simulate_loop_zero] at h
    cases h
    simp
  | succ n ih =>
    intro year c rs d f h
    by_cases hd : 1 - p.dividend_tax = 0
    · rw [simulate_loop_err p cy year n c hd] at h; cases h
    · set gross := p.net_withdrawal * (1 + p.inflation) ^ (year - 1) / (1 - p.dividend_tax)
        with hg
      set proj := c + c * p.annual_return - progressive_tax p (c * p.annual_return) - gross
        with hp
      by_cases hneg : proj < 0
      · rw [simulate_loop_clamp p cy year n c gross proj hd hg hp hneg] at h
        cases h
        intro r hr
        simp only [List.mem_singleton] at hr
        subst hr
        constructor
        · rfl
        · show (gross + proj) * (1 - p.dividend_tax) + (gross + proj) * p.dividend_tax
            = gross + proj
          ring
      · rw [simulate_loop_cont p cy year n c gross proj hd hg hp hneg] at h
        cases hrec : simulate_loop p cy (year + 1) n proj with
        | error e => rw [hrec] at h; cases h
        | ok out =>
          obtain ⟨rest, dep, fin⟩ := out
          rw [hrec] at h
          simp only [Except.ok.injEq, Prod.mk.injEq] at h
          obtain ⟨hrs, hdp, hf⟩ := h
          subst hrs hdp hf
          intro r hr
          rcases List.mem_cons.mp hr with hr | hr
          · subst hr
            have h1 : p.net_withdrawal * (1 + p.inflation) ^ (year - 1)
                = gross * (1 - p.dividend_tax) := by
              rw [hg, div_mul_cancel₀ _ hd]
            refine ⟨h1, ?_⟩
            show p.net_withdrawal * (1 + p.inflation) ^ (year - 1)
                + gross * p.dividend_tax = gross
            rw [h1]; ring
          · exact ih (year + 1) proj rest dep fin hrec r hr

/-- Claim C3 (amended): in every simulated period the profit tax is computed
from the profit (not from the capital) by the two-bracket formula; a negative
profit yields a strictly negative profit tax (a credit) whenever
`tax_threshold1 ≥ 0` and `tax_rate1 > 0` (with `tax_rate1 = 0` it is `0`). -/
theorem c3_profit_tax_formula (p : Params) (cy : ℤ)
    (rs : List YearRecord) (d : Bool) (f : ℚ)
    (h : simulate_withdrawal p cy = .ok (rs, d, f)) :
    ∀ r ∈ rs.tail,
      (r.profit_tax = if r.profit ≤ p.tax_threshold1 then r.profit * p.tax_rate1
        else p.tax_threshold1 * p.tax_rate1
          + (r.profit - p.tax_threshold1) * p.tax_rate2) ∧
      (0 ≤ p.tax_threshold1 → 0 < p.tax_rate1 → r.profit < 0 → r.profit_tax < 0) := by
  unfold simulate_withdrawal at h
  cases hrec : simulate_loop p cy 1 p.years.toNat p.start_capital with
  | error e => rw [hrec] at h; cases h
  | ok out =>
    obtain ⟨rest, dep, fin⟩ := out
    rw [hrec] at h
    simp only [Except.ok.injEq, Prod.mk.injEq] at h
    obtain ⟨hrs, hdp, hf⟩ := h
    subst hrs hdp hf
    intro r hr
    simp only [List.tail_cons] at hr
    have hform := simulate_loop_profit_tax p cy _ 1 p.start_capital rest dep fin hrec r hr
    have hform2 : r.profit_tax
        = if r.profit ≤ p.tax_threshold1 then r.profit * p.tax_rate1
          else p.tax_threshold1 * p.tax_rate1
            + (r.profit - p.tax_threshold1) * p.tax_rate2 := hform
    refine ⟨hform2, ?_⟩
    intro ht hr1 hneg
    rw [hform2, if_pos (le_trans (le_of_lt hneg) ht)]
    exact mul_neg_of_neg_of_pos hneg hr1

theorem c3_counterexample :
    (⟨2026, -50, 0, 0, 0, 0, 50⟩ : YearRecord) ∈
      (records ⟨100, -1/2, 0, 0, 0, 0, 1/4, 0, 1⟩ 2025).tail ∧
    (⟨2026, -50, 0, 0, 0, 0, 50⟩ : YearRecord).profit < 0 ∧
    ¬ (⟨2026, -50, 0, 0, 0, 0, 50⟩ : YearRecord).profit_tax < 0 := by
  refine ⟨?_, by norm_num, by norm_num⟩
  have hrs : records ⟨100, -1/2, 0, 0, 0, 0, 1/4, 0, 1⟩ 2025 =
      [⟨2025, 0, 0, 0, 0, 0, 100⟩, ⟨2026, -50, 0, 0, 0, 0, 50⟩] := by
    norm_num [records, simulate_withdrawal, simulate_loop, progressive_tax]
  rw [hrs]
  simp

theorem c3_witness :
    simulate_withdrawal ⟨100, -1/2, 0, 0, 0, 1/4, 1/4, 0, 1⟩ 2025 =
      .ok ([⟨2025, 0, 0, 0, 0, 0, 100⟩, ⟨2026, -50, -25/2, 0, 0, 0, 125/2⟩],
        false, 125/2) ∧
    ((⟨2026, -50, -25/2, 0, 0, 0, 125/2⟩ : YearRecord).profit_tax =
      if (⟨2026, -50, -25/2, 0, 0, 0, 125/2⟩ : YearRecord).profit
          ≤ (⟨100, -1/2, 0, 0, 0, 1/4, 1/4, 0, 1⟩ : Params).tax_threshold1
        then (⟨2026, -50, -25/2, 0, 0, 0, 125/2⟩ : YearRecord).profit
          * (⟨100, -1/2, 0, 0, 0, 1/4, 1/4, 0, 1⟩ : Params).tax_rate1
        else (⟨100, -1/2, 0, 0, 0, 1/4, 1/4, 0, 1⟩ : Params).tax_threshold1
            * (⟨100, -1/2, 0, 0, 0, 1/4, 1/4, 0, 1⟩ : Params).tax_rate1
          + ((⟨2026, -50, -25/2, 0, 0, 0, 125/2⟩ : YearRecord).profit
              - (⟨100, -1/2, 0, 0, 0, 1/4, 1/4, 0, 1⟩ : Params).tax_threshold1)
            * (⟨100, -1/2, 0, 0, 0, 1/4, 1/4, 0, 1⟩ : Params).tax_rate2) ∧
    (⟨2026, -50, -25/2, 0, 0, 0, 125/2⟩ : YearRecord).profit_tax < 0 := by
  have hsim : simulate_withdrawal ⟨100, -1/2, 0, 0, 0, 1/4, 1/4, 0, 1⟩ 2025 =
      .ok ([⟨2025, 0, 0, 0, 0, 0, 100⟩, ⟨2026, -50, -25/2, 0, 0, 0, 125/2⟩],
        false, 125/2) := by
    norm_num [simulate_withdrawal, simulate_loop, progressive_tax]
  have hmem : (⟨2026, -50, -25/2, 0, 0, 0, 125/2⟩ : YearRecord) ∈
      ([⟨2025, 0, 0, 0, 0, 0, 100⟩,
        (⟨2026, -50, -25/2, 0, 0, 0, 125/2⟩ : YearRecord)]).tail := by simp
  have h := c3_profit_tax_formula ⟨100, -1/2, 0, 0, 0, 1/4, 1/4, 0, 1⟩ 2025
    [⟨2025, 0, 0, 0, 0, 0, 100⟩, ⟨2026, -50, -25/2, 0, 0, 0, 125/2⟩] false (125/2)
    hsim ⟨2026, -50, -25/2, 0, 0, 0, 125/2⟩ hmem
  exact ⟨hsim, h.1, h.2 (by norm_num) (by norm_num) (by norm_num)⟩

/-- Claim C9: for every record after period 0 of any successful simulation, in
both the normal and the depletion-clamped branch, the net withdrawal equals
the gross withdrawal times `1 - dividend_tax`, and net withdrawal plus
dividend tax equals the gross withdrawal, exactly. -/
theorem c9_net_gross_relation (p : Params) (cy : ℤ)
    (rs : List YearRecord) (d : Bool) (f : ℚ)
    (h : simulate_withdrawal p cy = .ok (rs, d, f)) :
    ∀ r ∈ rs.tail,
      r.net_withdrawal = r.gross_withdrawal * (1 - p.dividend_tax) ∧
      r.net_withdrawal + r.dividend_tax = r.gross_withdrawal := by
  unfold simulate_withdrawal at h
  cases hrec : simulate_loop p cy 1 p.years.toNat p.start_capital with
  | error e => rw [hrec] at h; cases h
  | ok out =>
    obtain ⟨rest, dep, fin⟩ := out
    rw [hrec] at h
    simp only [Except.ok.injEq, Prod.mk.injEq] at h
    obtain ⟨hrs, hdp, hf⟩ := h
    subst hrs hdp hf
    intro r hr
    simp only [List.tail_cons] at hr
    exact simulate_loop_net_gross p cy _ 1 p.start_capital rest dep fin hrec r hr

theorem c9_witness :
    simulate_withdrawal ⟨100, 0, 0, 30, 0, 0, 0, 1/4, 1⟩ 0 =
      .ok ([⟨0, 0, 0, 0, 0, 0, 100⟩, ⟨1, 0, 0, 10, 40, 30, 60⟩], false, 60) ∧
    (⟨1, 0, 0, 10, 40, 30, 60⟩ : YearRecord).net_withdrawal =
      (⟨1, 0, 0, 10, 40, 30, 60⟩ : YearRecord).gross_withdrawal
        * (1 - (⟨100, 0, 0, 30, 0, 0, 0, 1/4, 1⟩ : Params).dividend_tax) ∧
    (⟨1, 0, 0, 10, 40, 30, 60⟩ : YearRecord).net_withdrawal
        + (⟨1, 0, 0, 10, 40, 30, 60⟩ : YearRecord).dividend_tax =
      (⟨1, 0, 0, 10, 40, 30, 60⟩ : YearRecord).gross_withdrawal := by
  have hsim : simulate_withdrawal ⟨100, 0, 0, 30, 0, 0, 0, 1/4, 1⟩ 0 =
      .ok ([⟨0, 0, 0, 0, 0, 0, 100⟩, ⟨1, 0, 0, 10, 40, 30, 60⟩], false, 60) := by
    norm_num [simulate_withdrawal, simulate_loop, progressive_tax]
  have h := c9_net_gross_relation ⟨100, 0, 0, 30, 0, 0, 0, 1/4, 1⟩ 0
    [⟨0, 0, 0, 0, 0, 0, 100⟩, ⟨1, 0, 0, 10, 40, 30, 60⟩] false 60 hsim
    ⟨1, 0, 0, 10, 40, 30, 60⟩ (by simp)
  exact ⟨hsim, h.1, h.2⟩

/-- Claim C10: with a sufficiently negative annual return (here `-200%`,
making `capital + profit - profit_tax < 0`), the depletion clamp produces a
final record whose gross and net withdrawals are negative — the "withdrawal"
is a capital contribution — while the end capital is still set to `0` and the
depletion flag is raised. -/
theorem c10_negative_withdrawal_on_crash :
    simulate_withdrawal ⟨100, -2, 0, 0, 0, 0, 0, 1/4, 4⟩ 2025 =
      .ok ([⟨2025, 0, 0, 0, 0, 0, 100⟩, ⟨2026, -200, 0, -25, -100, -75, 0⟩],
        true, 0) ∧
    (⟨2026, -200, 0, -25, -100, -75, 0⟩ : YearRecord).gross_withdrawal < 0 ∧
    (⟨2026, -200, 0, -25, -100, -75, 0⟩ : YearRecord).net_withdrawal < 0 ∧
    (⟨2026, -200, 0, -25, -100, -75, 0⟩ : YearRecord).end_capital = 0 := by
  refine ⟨?_, by norm_num, by norm_num, by norm_num⟩
  norm_num [simulate_withdrawal, simulate_loop, progressive_tax]

/-! ### Error behavior -/

lemma simulate_loop_ok_of_ne (p : Params) (cy : ℤ)
    (hd : 1 - p.dividend_tax ≠ 0) :
    ∀ (n year : ℕ) (c : ℚ), ∃ rs d f,
      simulate_loop p cy year n c = .ok (rs, d, f) := by
  intro n
  induction n with
  | zero => intro year c; exact ⟨[], false, c, rfl⟩
  | succ n ih =>
    intro year c
    set gross := p.net_withdrawal * (1 + p.inflation) ^ (year - 1) / (1 - p.dividend_tax)
      with hg
    set proj := c + c * p.annual_return - progressive_tax p (c * p.annual_return) - gross
      with hp
    by_cases hneg : proj < 0
    · exact ⟨_, _, _, simulate_loop_clamp p cy year n c gross proj hd hg hp hneg⟩
    · obtain ⟨rest, dep, fin, hrec⟩ := ih (year + 1) proj
      refine ⟨{ year := cy + year
                profit := c * p.annual_return
                profit_tax := progressive_tax p (c * p.annual_return)
                dividend_tax := gross * p.dividend_tax
                gross_withdrawal := gross
                net_withdrawal := p.net_withdrawal * (1 + p.inflation) ^ (year - 1)
                end_capital := proj } :: rest, dep, fin, ?_⟩
      rw [simulate_loop_cont p cy year n c gross proj hd hg hp hneg, hrec]

/-- Claim C6 (amended): `simulate_withdrawal` performs no parameter
validation.  With `dividend_tax = 1` and at least one simulated year it fails
with the runtime division-by-zero error (raised inside the first simulated
period, not by a parameter check), and with any `dividend_tax ≠ 1` it returns
normally — in particular negative `years` or negative `start_capital` are
never rejected. -/
theorem c6_no_validation (p : Params) (cy : ℤ) :
    (p.dividend_tax = 1 → 1 ≤ p.years →
      simulate_withdrawal p cy = .error .zeroDivision) ∧
    (p.dividend_tax ≠ 1 → simOk p cy = true) := by
  constructor
  · intro hd hy
    obtain ⟨m, hm⟩ : ∃ m, p.years.toNat = m + 1 :=
      ⟨p.years.toNat - 1, by omega⟩
    unfold simulate_withdrawal
    rw [hm, simulate_loop_err p cy 1 m p.start_capital (by rw [hd]; ring)]
  · intro hd
    obtain ⟨rs, d, f, hrec⟩ :=
      simulate_loop_ok_of_ne p cy (sub_ne_zero.mpr (Ne.symm hd)) p.years.toNat 1
        p.start_capital
    unfold simOk simulate_withdrawal
    rw [hrec]

theorem c6_counterexample :
    (⟨-5, 0, 0, 0, 0, 0, 0, 1/4, -3⟩ : Params).start_capital < 0 ∧
    (⟨-5, 0, 0, 0, 0, 0, 0, 1/4, -3⟩ : Params).years < 0 ∧
    simulate_withdrawal ⟨-5, 0, 0, 0, 0, 0, 0, 1/4, -3⟩ 2025 =
      .ok ([⟨2025, 0, 0, 0, 0, 0, -5⟩], false, -5) := by
  refine ⟨by norm_num, by norm_num, ?_⟩
  norm_num [simulate_withdrawal, simulate_loop]

theorem c6_witness :
    simulate_withdrawal ⟨100, 0, 0, 30, 0, 0, 0, 1, 3⟩ 2025 =
      .error .zeroDivision ∧
    simOk ⟨-5, 0, 0, 0, 0, 0, 0, 1/4, -3⟩ 2025 = true :=
  ⟨(c6_no_validation ⟨100, 0, 0, 30, 0, 0, 0, 1, 3⟩ 2025).1 rfl (by norm_num),
   (c6_no_validation ⟨-5, 0, 0, 0, 0, 0, 0, 1/4, -3⟩ 2025).2 (by norm_num)⟩

/-! ### Step equations for the bisection loop -/

lemma simulate_withdrawal_ok (p : Params) (cy : ℤ) (hd : p.dividend_tax ≠ 1) :
    ∃ rs d f, simulate_withdrawal p cy = .ok (rs, d, f) := by
  obtain ⟨rs, d, f, hrec⟩ :=
    simulate_loop_ok_of_ne p cy (sub_ne_zero.mpr (Ne.symm hd)) p.years.toNat 1
      p.start_capital
  refine ⟨{ year := cy, profit := 0, profit_tax := 0, dividend_tax := 0
            gross_withdrawal := 0, net_withdrawal := 0
            end_capital := p.start_capital } :: rs, d, f, ?_⟩
  unfold simulate_withdrawal
  rw [hrec]

lemma solver_loop_fuel_zero (p : Params) (cy : ℤ) (low high : ℚ) :
    solver_loop p cy low high 0 = none := rfl

lemma solver_loop_exit (p : Params) (cy : ℤ) (low high : ℚ) (n : ℕ)
    (hle : ¬ 1 < high - low) :
    solver_loop p cy low high (n + 1) = some (low, high) := by
  simp only [solver_loop]
  rw [if_neg hle]

lemma solver_loop_step_low (p : Params) (cy : ℤ) (low high : ℚ) (n : ℕ)
    (mid : ℚ) (rs : List YearRecord) (d : Bool) (f : ℚ)
    (hlt : 1 < high - low) (hmid : mid = (low + high) / 2)
    (hsim : simulate_withdrawal (withW p mid) cy = .ok (rs, d, f))
    (hf : 0 < f) :
    solver_loop p cy low high (n + 1) = solver_loop p cy mid high n := by
  subst hmid
  simp only [solver_loop]
  rw [if_pos hlt, hsim]
  simp only [if_pos hf]

lemma solver_loop_step_high (p : Params) (cy : ℤ) (low high : ℚ) (n : ℕ)
    (mid : ℚ) (rs : List YearRecord) (d : Bool) (f : ℚ)
    (hlt : 1 < high - low) (hmid : mid = (low + high) / 2)
    (hsim : simulate_withdrawal (withW p mid) cy = .ok (rs, d, f))
    (hf : ¬ 0 < f) :
    solver_loop p cy low high (n + 1) = solver_loop p cy low mid n := by
  subst hmid
  simp only [solver_loop]
  rw [if_pos hlt, hsim]
  simp only [if_neg hf]

/-! ### Termination of the bisection -/

lemma solver_loop_term (p : Params) (cy : ℤ) (hd : p.dividend_tax ≠ 1) :
    ∀ (k : ℕ) (low high : ℚ), high - low ≤ 2 ^ k →
      ∃ l h, solver_loop p cy low high (k + 1) = some (l, h) ∧ h - l ≤ 1 := by
  intro k
  induction k with
  | zero =>
    intro low high hw
    rw [pow_zero] at hw
    exact ⟨low, high, solver_loop_exit p cy low high 0 (not_lt.mpr hw), hw⟩
  | succ k ih =>
    intro low high hw
    by_cases hlt : 1 < high - low
    · obtain ⟨rs, d, f, hsim⟩ := simulate_withdrawal_ok (withW p ((low + high) / 2)) cy hd
      have hhalf : high - (low + high) / 2 ≤ 2 ^ k ∧ (low + high) / 2 - low ≤ 2 ^ k := by
        rw [pow_succ] at hw
        constructor <;> linarith
      by_cases hf : 0 < f
      · rw [solver_loop_step_low p cy low high (k + 1) _ rs d f hlt rfl hsim hf]
        exact ih ((low + high) / 2) high hhalf.1
      · rw [solver_loop_step_high p cy low high (k + 1) _ rs d f hlt rfl hsim hf]
        exact ih low ((low + high) / 2) hhalf.2
    · push_neg at hlt
      exact ⟨low, high, solver_loop_exit p cy low high (k + 1) (not_lt.mpr hlt), hlt⟩

/-- Claim C7: for every `start_capital ≥ 0` and valid `dividend_tax`, the
bisection loop over `[0, start_capital * 2]` reaches, after finitely many
iterations and although it has no iteration cap, a bracket with
`high - low ≤ 1` (the tolerance), and the solver returns `(low + high) / 2`
for that bracket. -/
theorem c7_bisection_terminates (p : Params) (cy : ℤ)
    (hsc : 0 ≤ p.start_capital) (hd : p.dividend_tax ≠ 1) :
    ∃ (n : ℕ) (l h : ℚ),
      solver_loop p cy 0 (p.start_capital * 2) n = some (l, h) ∧
      h - l ≤ 1 ∧
      auto_calc_withdrawal p cy n = some ((l + h) / 2) := by
  obtain ⟨k, hk⟩ : ∃ k : ℕ, p.start_capital * 2 < 2 ^ k :=
    pow_unbounded_of_one_lt (p.start_capital * 2) (by norm_num)
  obtain ⟨l, h, hloop, hw⟩ :=
    solver_loop_term p cy hd k 0 (p.start_capital * 2) (by linarith)
  refine ⟨k + 1, l, h, hloop, hw, ?_⟩
  unfold auto_calc_withdrawal
  rw [hloop]
  rfl

theorem c7_witness :
    (0:ℚ) ≤ (⟨100, 0, 0, 0, 0, 0, 0, 1/4, 3⟩ : Params).start_capital ∧
    (⟨100, 0, 0, 0, 0, 0, 0, 1/4, 3⟩ : Params).dividend_tax ≠ 1 ∧
    ∃ (n : ℕ) (l h : ℚ),
      solver_loop ⟨100, 0, 0, 0, 0, 0, 0, 1/4, 3⟩ 2025 0
          ((⟨100, 0, 0, 0, 0, 0, 0, 1/4, 3⟩ : Params).start_capital * 2) n
        = some (l, h) ∧
      h - l ≤ 1 ∧
      auto_calc_withdrawal ⟨100, 0, 0, 0, 0, 0, 0, 1/4, 3⟩ 2025 n
        = some ((l + h) / 2) :=
  ⟨by norm_num, by norm_num,
   c7_bisection_terminates ⟨100, 0, 0, 0, 0, 0, 0, 1/4, 3⟩ 2025 (by norm_num)
     (by norm_num)⟩

/-- Claim C8: with `start_capital = 0` the search range `[0, 0]` is
degenerate, the loop condition fails at once, and the solver returns `0`
immediately (any positive fuel suffices). -/
theorem c8_zero_capital (p : Params) (cy : ℤ) (hsc : p.start_capital = 0)
    (n : ℕ) :
    auto_calc_withdrawal p cy (n + 1) = some 0 := by
  unfold auto_calc_withdrawal
  rw [hsc, solver_loop_exit p cy 0 (0 * 2) n (by norm_num)]
  norm_num

theorem c8_witness :
    (⟨0, 0, 0, 0, 0, 0, 0, 1/4, 30⟩ : Params).start_capital = 0 ∧
    auto_calc_withdrawal ⟨0, 0, 0, 0, 0, 0, 0, 1/4, 30⟩ 2025 1 = some 0 :=
  ⟨rfl, c8_zero_capital ⟨0, 0, 0, 0, 0, 0, 0, 1/4, 30⟩ 2025 rfl 0⟩

/-! ### What the bisection bracket guarantees -/

lemma solver_loop_bracket (p : Params) (cy : ℤ) (hd : p.dividend_tax ≠ 1) :
    ∀ (n : ℕ) (low high l h : ℚ), low ≤ high →
      finalCapital (withW p high) cy ≤ 0 →
      solver_loop p cy low high n = some (l, h) →
      l ≤ h ∧ h - l ≤ 1 ∧ finalCapital (withW p h) cy ≤ 0 := by
  intro n
  induction n with
  | zero =>
    intro low high l h _ _ hloop
    rw [solver_loop_fuel_zero] at hloop
    cases hloop
  | succ n ih =>
    intro low high l h hlh hhi hloop
    by_cases hlt : 1 < high - low
    · obtain ⟨rs, d, f, hsim⟩ := simulate_withdrawal_ok (withW p ((low + high) / 2)) cy hd
      by_cases hf : 0 < f
      · rw [solver_loop_step_low p cy low high n _ rs d f hlt rfl hsim hf] at hloop
        exact ih ((low + high) / 2) high l h (by linarith) hhi hloop
      · rw [solver_loop_step_high p cy low high n _ rs d f hlt rfl hsim hf] at hloop
        refine ih low ((low + high) / 2) l h (by linarith) ?_ hloop
        have hfc : finalCapital (withW p ((low + high) / 2)) cy = f := by
          unfold finalCapital
          rw [hsim]
        rw [hfc]
        exact not_lt.mp hf
    · rw [solver_loop_exit p cy low high n hlt] at hloop
      simp only [Option.some.injEq, Prod.mk.injEq] at hloop
      obtain ⟨hl, hh⟩ := hloop
      subst hl hh
      push_neg at hlt
      exact ⟨hlh, hlt, hhi⟩

/-- Claim C4 (amended): the solver's tolerance bounds the withdrawal, not the
final capital.  Whenever the bisection loop exits with bracket `(l, h)` (for
valid `dividend_tax`, `start_capital ≥ 0`, and an upper bound
`start_capital * 2` whose simulation ends at capital `≤ 0`), the solver
returns `(l + h) / 2`, the bracket satisfies `h - l ≤ 1`, simulating with the
upper end `h` ends with final capital exactly `0` at or before the horizon,
and the returned value is within `1/2` of `h`; the final capital at the
returned value itself is only guaranteed to be `≥ 0`, not within the
tolerance of `0`. -/
theorem c4_solver_bracket (p : Params) (cy : ℤ) (n : ℕ) (l h : ℚ)
    (hd : p.dividend_tax ≠ 1) (hsc : 0 ≤ p.start_capital)
    (hhi : finalCapital (withW p (p.start_capital * 2)) cy ≤ 0)
    (hloop : solver_loop p cy 0 (p.start_capital * 2) n = some (l, h)) :
    auto_calc_withdrawal p cy n = some ((l + h) / 2) ∧
    h - l ≤ 1 ∧
    finalCapital (withW p h) cy = 0 ∧
    h - (l + h) / 2 ≤ 1 / 2 ∧
    0 ≤ finalCapital (withW p ((l + h) / 2)) cy := by
  obtain ⟨hlh, hw, hle⟩ :=
    solver_loop_bracket p cy hd n 0 (p.start_capital * 2) l h (by linarith) hhi hloop
  refine ⟨?_, hw, le_antisymm hle (finalCapital_nonneg (withW p h) cy hsc), by linarith,
    finalCapital_nonneg (withW p ((l + h) / 2)) cy hsc⟩
  unfold auto_calc_withdrawal
  rw [hloop]
  rfl

/-- Bisection trace for `start_capital = 4`, zero rates and `years = 4`: the
midpoints `4`, `2`, `1` all end at capital `0`, so the loop narrows to the
bracket `(0, 1)`. -/
lemma solver_trace_example :
    solver_loop ⟨4, 0, 0, 0, 0, 0, 0, 0, 4⟩ 2025 0 8 5 = some (0, 1) := by
  have s4 : simulate_withdrawal (withW ⟨4, 0, 0, 0, 0, 0, 0, 0, 4⟩ 4) 2025 =
      .ok ([⟨2025, 0, 0, 0, 0, 0, 4⟩, ⟨2026, 0, 0, 0, 4, 4, 0⟩,
            ⟨2027, 0, 0, 0, 0, 0, 0⟩], true, 0) := by
    norm_num [withW, simulate_withdrawal, simulate_loop, progressive_tax]
  have s2 : simulate_withdrawal (withW ⟨4, 0, 0, 0, 0, 0, 0, 0, 4⟩ 2) 2025 =
      .ok ([⟨2025, 0, 0, 0, 0, 0, 4⟩, ⟨2026, 0, 0, 0, 2, 2, 2⟩,
            ⟨2027, 0, 0, 0, 2, 2, 0⟩, ⟨2028, 0, 0, 0, 0, 0, 0⟩], true, 0) := by
    norm_num [withW, simulate_withdrawal, simulate_loop, progressive_tax]
  have s1 : simulate_withdrawal (withW ⟨4, 0, 0, 0, 0, 0, 0, 0, 4⟩ 1) 2025 =
      .ok ([⟨2025, 0, 0, 0, 0, 0, 4⟩, ⟨2026, 0, 0, 0, 1, 1, 3⟩,
            ⟨2027, 0, 0, 0, 1, 1, 2⟩, ⟨2028, 0, 0, 0, 1, 1, 1⟩,
            ⟨2029, 0, 0, 0, 1, 1, 0⟩], false, 0) := by
    norm_num [withW, simulate_withdrawal, simulate_loop, progressive_tax]
  rw [solver_loop_step_high ⟨4, 0, 0, 0, 0, 0, 0, 0, 4⟩ 2025 0 8 4 4 _ _ _
        (by norm_num) (by norm_num) s4 (by norm_num)]
  rw [solver_loop_step_high ⟨4, 0, 0, 0, 0, 0, 0, 0, 4⟩ 2025 0 4 3 2 _ _ _
        (by norm_num) (by norm_num) s2 (by norm_num)]
  rw [solver_loop_step_high ⟨4, 0, 0, 0, 0, 0, 0, 0, 4⟩ 2025 0 2 2 1 _ _ _
        (by norm_num) (by norm_num) s1 (by norm_num)]
  exact solver_loop_exit ⟨4, 0, 0, 0, 0, 0, 0, 0, 4⟩ 2025 0 1 1 (by norm_num)

theorem c4_counterexample :
    auto_calc_withdrawal ⟨4, 0, 0, 0, 0, 0, 0, 0, 4⟩ 2025 5 = some (1/2) ∧
    finalCapital (withW ⟨4, 0, 0, 0, 0, 0, 0, 0, 4⟩ (1/2)) 2025 = 2 ∧
    ¬ finalCapital (withW ⟨4, 0, 0, 0, 0, 0, 0, 0, 4⟩ (1/2)) 2025 ≤ 1 := by
  have hhalf : simulate_withdrawal (withW ⟨4, 0, 0, 0, 0, 0, 0, 0, 4⟩ (1/2)) 2025 =
      .ok ([⟨2025, 0, 0, 0, 0, 0, 4⟩, ⟨2026, 0, 0, 0, 1/2, 1/2, 7/2⟩,
            ⟨2027, 0, 0, 0, 1/2, 1/2, 3⟩, ⟨2028, 0, 0, 0, 1/2, 1/2, 5/2⟩,
            ⟨2029, 0, 0, 0, 1/2, 1/2, 2⟩], false, 2) := by
    norm_num [withW, simulate_withdrawal, simulate_loop, progressive_tax]
  have hfc : finalCapital (withW ⟨4, 0, 0, 0, 0, 0, 0, 0, 4⟩ (1/2)) 2025 = 2 := by
    unfold finalCapital
    rw [hhalf]
  refine ⟨?_, hfc, by rw [hfc]; norm_num⟩
  unfold auto_calc_withdrawal
  have h8 : (⟨4, 0, 0, 0, 0, 0, 0, 0, 4⟩ : Params).start_capital * 2 = 8 := by norm_num
  rw [h8, solver_trace_example]
  norm_num

theorem c4_witness :
    ((⟨4, 0, 0, 0, 0, 0, 0, 0, 4⟩ : Params).dividend_tax ≠ 1) ∧
    ((0:ℚ) ≤ (⟨4, 0, 0, 0, 0, 0, 0, 0, 4⟩ : Params).start_capital) ∧
    (finalCapital (withW ⟨4, 0, 0, 0, 0, 0, 0, 0, 4⟩
        ((⟨4, 0, 0, 0, 0, 0, 0, 0, 4⟩ : Params).start_capital * 2)) 2025 ≤ 0) ∧
    (solver_loop ⟨4, 0, 0, 0, 0, 0, 0, 0, 4⟩ 2025 0
        ((⟨4, 0, 0, 0, 0, 0, 0, 0, 4⟩ : Params).start_capital * 2) 5 = some (0, 1)) ∧
    (auto_calc_withdrawal ⟨4, 0, 0, 0, 0, 0, 0, 0, 4⟩ 2025 5 = some ((0 + 1) / 2) ∧
      (1:ℚ) - 0 ≤ 1 ∧
      finalCapital (withW ⟨4, 0, 0, 0, 0, 0, 0, 0, 4⟩ 1) 2025 = 0 ∧
      (1:ℚ) - (0 + 1) / 2 ≤ 1 / 2 ∧
      0 ≤ finalCapital (withW ⟨4, 0, 0, 0, 0, 0, 0, 0, 4⟩ ((0 + 1) / 2)) 2025) := by
  have hhi : finalCapital (withW ⟨4, 0, 0, 0, 0, 0, 0, 0, 4⟩
      ((⟨4, 0, 0, 0, 0, 0, 0, 0, 4⟩ : Params).start_capital * 2)) 2025 ≤ 0 := by
    have s8 : simulate_withdrawal (withW ⟨4, 0, 0, 0, 0, 0, 0, 0, 4⟩ 8) 2025 =
        .ok ([⟨2025, 0, 0, 0, 0, 0, 4⟩, ⟨2026, 0, 0, 0, 4, 4, 0⟩], true, 0) := by
      norm_num [withW, simulate_withdrawal, simulate_loop, progressive_tax]
    have h8 : (⟨4, 0, 0, 0, 0, 0, 0, 0, 4⟩ : Params).start_capital * 2 = 8 := by
      norm_num
    rw [h8]
    unfold finalCapital
    rw [s8]
  have hloop : solver_loop ⟨4, 0, 0, 0, 0, 0, 0, 0, 4⟩ 2025 0
      ((⟨4, 0, 0, 0, 0, 0, 0, 0, 4⟩ : Params).start_capital * 2) 5 = some (0, 1) := by
    have h8 : (⟨4, 0, 0, 0, 0, 0, 0, 0, 4⟩ : Params).start_capital * 2 = 8 := by
      norm_num
    rw [h8]
    exact solver_trace_example
  exact ⟨by norm_num, by norm_num, hhi, hloop,
    c4_solver_bracket ⟨4, 0, 0, 0, 0, 0, 0, 0, 4⟩ 2025 5 0 1 (by norm_num)
      (by norm_num) hhi hloop⟩

/-! ### Monotonicity in the withdrawal amount -/

lemma withW_net_withdrawal (p : Params) (w : ℚ) : (withW p w).net_withdrawal = w := rfl

lemma withW_annual_return (p : Params) (w : ℚ) :
    (withW p w).annual_return = p.annual_return := rfl

lemma withW_inflation (p : Params) (w : ℚ) : (withW p w).inflation = p.inflation := rfl

lemma withW_dividend_tax (p : Params) (w : ℚ) :
    (withW p w).dividend_tax = p.dividend_tax := rfl

lemma withW_start_capital (p : Params) (w : ℚ) :
    (withW p w).start_capital = p.start_capital := rfl

lemma withW_years (p : Params) (w : ℚ) : (withW p w).years = p.years := rfl

lemma progressive_tax_withW (p : Params) (w x : ℚ) :
    progressive_tax (withW p w) x = progressive_tax p x := rfl

lemma progressive_tax_mono (p : Params)
    (hr1 : 0 ≤ p.tax_rate1) (hr2 : 0 ≤ p.tax_rate2)
    {x y : ℚ} (hxy : x ≤ y) :
    progressive_tax p x ≤ progressive_tax p y := by
  unfold progressive_tax
  by_cases hx : x ≤ p.tax_threshold1 <;> by_cases hy : y ≤ p.tax_threshold1
  · rw [if_pos hx, if_pos hy]
    exact mul_le_mul_of_nonneg_right hxy hr1
  · rw [if_pos hx, if_neg hy]
    push_neg at hy
    nlinarith [mul_le_mul_of_nonneg_right hx hr1,
      mul_nonneg (by linarith : (0:ℚ) ≤ y - p.tax_threshold1) hr2]
  · exact absurd (le_trans hxy hy) hx
  · rw [if_neg hx, if_neg hy]
    nlinarith [mul_le_mul_of_nonneg_right (sub_le_sub_right hxy p.tax_threshold1) hr2]

lemma sub_progressive_tax_mono (p : Params)
    (hr1 : p.tax_rate1 ≤ 1) (hr2 : p.tax_rate2 ≤ 1)
    {x y : ℚ} (hxy : x ≤ y) :
    x - progressive_tax p x ≤ y - progressive_tax p y := by
  unfold progressive_tax
  by_cases hx : x ≤ p.tax_threshold1 <;> by_cases hy : y ≤ p.tax_threshold1
  · rw [if_pos hx, if_pos hy]
    nlinarith [mul_nonneg (sub_nonneg.2 hxy) (sub_nonneg.2 hr1)]
  · rw [if_pos hx, if_neg hy]
    push_neg at hy
    nlinarith [mul_nonneg (by linarith : (0:ℚ) ≤ p.tax_threshold1 - x)
        (by linarith : (0:ℚ) ≤ 1 - p.tax_rate1),
      mul_nonneg (by linarith : (0:ℚ) ≤ y - p.tax_threshold1)
        (by linarith : (0:ℚ) ≤ 1 - p.tax_rate2)]
  · exact absurd (le_trans hxy hy) hx
  · rw [if_neg hx, if_neg hy]
    nlinarith [mul_nonneg (sub_nonneg.2 hxy) (by linarith : (0:ℚ) ≤ 1 - p.tax_rate2)]

lemma after_tax_mono (p : Params) (ha : -1 ≤ p.annual_return)
    (hr1a : 0 ≤ p.tax_rate1) (hr1b : p.tax_rate1 ≤ 1)
    (hr2a : 0 ≤ p.tax_rate2) (hr2b : p.tax_rate2 ≤ 1)
    {c1 c2 : ℚ} (hc : c2 ≤ c1) :
    c2 + c2 * p.annual_return - progressive_tax p (c2 * p.annual_return)
      ≤ c1 + c1 * p.annual_return - progressive_tax p (c1 * p.annual_return) := by
  rcases le_or_lt 0 p.annual_return with ha0 | ha0
  · have hm : c2 * p.annual_return ≤ c1 * p.annual_return :=
      mul_le_mul_of_nonneg_right hc ha0
    have h1 := sub_progressive_tax_mono p hr1b hr2b hm
    linarith
  · have hm : c1 * p.annual_return ≤ c2 * p.annual_return := by nlinarith
    have h2 := progressive_tax_mono p hr1a hr2a hm
    nlinarith [mul_nonneg (sub_nonneg.2 hc)
      (by linarith : (0:ℚ) ≤ 1 + p.annual_return)]

lemma gross_mono (p : Params) (hi : -1 ≤ p.inflation)
    (hdb : p.dividend_tax < 1) {w1 w2 : ℚ} (hw : w1 ≤ w2) (year : ℕ) :
    w1 * (1 + p.inflation) ^ (year - 1) / (1 - p.dividend_tax)
      ≤ w2 * (1 + p.inflation) ^ (year - 1) / (1 - p.dividend_tax) := by
  have hpow : (0:ℚ) ≤ (1 + p.inflation) ^ (year - 1) := pow_nonneg (by linarith) _
  have hden : (0:ℚ) < 1 - p.dividend_tax := by linarith
  rw [div_eq_mul_inv, div_eq_mul_inv]
  exact mul_le_mul_of_nonneg_right (mul_le_mul_of_nonneg_right hw hpow)
    (inv_nonneg.mpr (le_of_lt hden))

lemma mono_loop (p : Params) (cy : ℤ) (w1 w2 : ℚ)
    (ha : -1 ≤ p.annual_return)
    (hr1a : 0 ≤ p.tax_rate1) (hr1b : p.tax_rate1 ≤ 1)
    (hr2a : 0 ≤ p.tax_rate2) (hr2b : p.tax_rate2 ≤ 1)
    (hdb : p.dividend_tax < 1) (hi : -1 ≤ p.inflation)
    (hw : w1 ≤ w2) :
    ∀ (n year : ℕ) (c1 c2 : ℚ), c2 ≤ c1 →
      ∀ rs1 d1 f1 rs2 d2 f2,
        simulate_loop (withW p w1) cy year n c1 = .ok (rs1, d1, f1) →
        simulate_loop (withW p w2) cy year n c2 = .ok (rs2, d2, f2) →
        f2 ≤ f1 ∧ (d1 = true → d2 = true ∧ rs2.length ≤ rs1.length) := by
  have hdne1 : 1 - (withW p w1).dividend_tax ≠ 0 := by
    rw [withW_dividend_tax]
    exact ne_of_gt (by linarith)
  have hdne2 : 1 - (withW p w2).dividend_tax ≠ 0 := by
    rw [withW_dividend_tax]
    exact ne_of_gt (by linarith)
  intro n
  induction n with
  | zero =>
    intro year c1 c2 hc rs1 d1 f1 rs2 d2 f2 h1 h2
    rw [simulate_loop_zero] at h1 h2
    simp only [Except.ok.injEq, Prod.mk.injEq] at h1 h2
    obtain ⟨hr1, hdd1, hf1⟩ := h1
    obtain ⟨hr2, hdd2, hf2⟩ := h2
    subst hr1 hdd1 hf1 hr2 hdd2 hf2
    exact ⟨hc, fun hcontra => absurd hcontra Bool.false_ne_true⟩
  | succ n ih =>
    intro year c1 c2 hc rs1 d1 f1 rs2 d2 f2 h1 h2
    set g1 := w1 * (1 + p.inflation) ^ (year - 1) / (1 - p.dividend_tax) with hg1
    set g2 := w2 * (1 + p.inflation) ^ (year - 1) / (1 - p.dividend_tax) with hg2
    set proj1 := c1 + c1 * p.annual_return
        - progressive_tax p (c1 * p.annual_return) - g1 with hp1
    set proj2 := c2 + c2 * p.annual_return
        - progressive_tax p (c2 * p.annual_return) - g2 with hp2
    have hG : g1 ≤ g2 := by
      rw [hg1, hg2]
      exact gross_mono p hi hdb hw year
    have hproj : proj2 ≤ proj1 := by
      rw [hp1, hp2]
      have := after_tax_mono p ha hr1a hr1b hr2a hr2b hc
      linarith
    have hg1' : g1 = (withW p w1).net_withdrawal
        * (1 + (withW p w1).inflation) ^ (year - 1)
        / (1 - (withW p w1).dividend_tax) := by
      rw [withW_net_withdrawal, withW_inflation, withW_dividend_tax]
    have hg2' : g2 = (withW p w2).net_withdrawal
        * (1 + (withW p w2).inflation) ^ (year - 1)
        / (1 - (withW p w2).dividend_tax) := by
      rw [withW_net_withdrawal, withW_inflation, withW_dividend_tax]
    have hp1' : proj1 = c1 + c1 * (withW p w1).annual_return
        - progressive_tax (withW p w1) (c1 * (withW p w1).annual_return) - g1 := by
      rw [withW_annual_return, progressive_tax_withW]
    have hp2' : proj2 = c2 + c2 * (withW p w2).annual_return
        - progressive_tax (withW p w2) (c2 * (withW p w2).annual_return) - g2 := by
      rw [withW_annual_return, progressive_tax_withW]
    by_cases hneg1 : proj1 < 0
    · have hneg2 : proj2 < 0 := lt_of_le_of_lt hproj hneg1
      rw [simulate_loop_clamp (withW p w1) cy year n c1 g1 proj1 hdne1 hg1' hp1' hneg1]
        at h1
      rw [simulate_loop_clamp (withW p w2) cy year n c2 g2 proj2 hdne2 hg2' hp2' hneg2]
        at h2
      simp only [Except.ok.injEq, Prod.mk.injEq] at h1 h2
      obtain ⟨hr1, hdd1, hf1⟩ := h1
      obtain ⟨hr2, hdd2, hf2⟩ := h2
      subst hr1 hdd1 hf1 hr2 hdd2 hf2
      exact ⟨le_refl 0, fun _ => ⟨rfl, le_refl 1⟩⟩
    · by_cases hneg2 : proj2 < 0
      · rw [simulate_loop_clamp (withW p w2) cy year n c2 g2 proj2 hdne2 hg2' hp2' hneg2]
          at h2
        rw [simulate_loop_cont (withW p w1) cy year n c1 g1 proj1 hdne1 hg1' hp1' hneg1]
          at h1
        simp only [Except.ok.injEq, Prod.mk.injEq] at h2
        obtain ⟨hr2, hdd2, hf2⟩ := h2
        subst hr2 hdd2 hf2
        cases hrec1 : simulate_loop (withW p w1) cy (year + 1) n proj1 with
        | error e => rw [hrec1] at h1; cases h1
        | ok out =>
          obtain ⟨rest1, dep1, fin1⟩ := out
          rw [hrec1] at h1
          simp only [Except.ok.injEq, Prod.mk.injEq] at h1
          obtain ⟨hr1, hdd1, hf1⟩ := h1
          subst hr1 hdd1 hf1
          push_neg at hneg1
          have hfin1 : 0 ≤ fin1 :=
            (simulate_loop_nonneg (withW p w1) cy n (year + 1) proj1 hneg1
              rest1 dep1 fin1 hrec1).1
          refine ⟨hfin1, fun _ => ⟨rfl, ?_⟩⟩
          simp only [List.length_cons, List.length_nil]
          omega
      · rw [simulate_loop_cont (withW p w1) cy year n c1 g1 proj1 hdne1 hg1' hp1' hneg1]
          at h1
        rw [simulate_loop_cont (withW p w2) cy year n c2 g2 proj2 hdne2 hg2' hp2' hneg2]
          at h2
        cases hrec1 : simulate_loop (withW p w1) cy (year + 1) n proj1 with
        | error e => rw [hrec1] at h1; cases h1
        | ok out1 =>
          obtain ⟨rest1, dep1, fin1⟩ := out1
          rw [hrec1] at h1
          cases hrec2 : simulate_loop (withW p w2) cy (year + 1) n proj2 with
          | error e => rw [hrec2] at h2; cases h2
          | ok out2 =>
            obtain ⟨rest2, dep2, fin2⟩ := out2
            rw [hrec2] at h2
            simp only [Except.ok.injEq, Prod.mk.injEq] at h1 h2
            obtain ⟨hr1, hdd1, hf1⟩ := h1
            obtain ⟨hr2, hdd2, hf2⟩ := h2
            subst hr1 hdd1 hf1 hr2 hdd2 hf2
            obtain ⟨hff, hdd⟩ :=
              ih (year + 1) proj1 proj2 hproj rest1 dep1 fin1 rest2 dep2 fin2
                hrec1 hrec2
            refine ⟨hff, fun hdep => ⟨(hdd hdep).1, ?_⟩⟩
            simp only [List.length_cons]
            exact Nat.succ_le_succ (hdd hdep).2

lemma finalCapital_eq (p : Params) (cy : ℤ) (rs : List YearRecord) (d : Bool) (f : ℚ)
    (h : simulate_withdrawal p cy = .ok (rs, d, f)) : finalCapital p cy = f := by
  unfold finalCapital
  rw [h]

lemma runDepleted_eq (p : Params) (cy : ℤ) (rs : List YearRecord) (d : Bool) (f : ℚ)
    (h : simulate_withdrawal p cy = .ok (rs, d, f)) : runDepleted p cy = d := by
  unfold runDepleted
  rw [h]

lemma records_eq (p : Params) (cy : ℤ) (rs : List YearRecord) (d : Bool) (f : ℚ)
    (h : simulate_withdrawal p cy = .ok (rs, d, f)) : records p cy = rs := by
  unfold records
  rw [h]

lemma simulate_withdrawal_eq_of_loop (p : Params) (cy : ℤ)
    (rs : List YearRecord) (d : Bool) (f : ℚ)
    (h : simulate_loop p cy 1 p.years.toNat p.start_capital = .ok (rs, d, f)) :
    simulate_withdrawal p cy =
      .ok (({ year := cy, profit := 0, profit_tax := 0, dividend_tax := 0
              gross_withdrawal := 0, net_withdrawal := 0
              end_capital := p.start_capital } : YearRecord) :: rs, d, f) := by
  unfold simulate_withdrawal
  rw [h]

/-- Claim C5 (amended): for fixed other parameters in the spec's valid ranges,
increasing the base net withdrawal never increases the final end capital; and
if the smaller withdrawal depletes the capital, the larger one also depletes
it, at the same or an EARLIER period (never a later one) — the original
claim's "never decreases the period" direction is reversed. -/
theorem c5_monotonicity (p : Params) (cy : ℤ) (w1 w2 : ℚ)
    (ha : -1 ≤ p.annual_return)
    (hr1a : 0 ≤ p.tax_rate1) (hr1b : p.tax_rate1 ≤ 1)
    (hr2a : 0 ≤ p.tax_rate2) (hr2b : p.tax_rate2 ≤ 1)
    (hdb : p.dividend_tax < 1) (hi : -1 ≤ p.inflation)
    (hw : w1 ≤ w2) :
    finalCapital (withW p w2) cy ≤ finalCapital (withW p w1) cy ∧
    (runDepleted (withW p w1) cy = true →
      runDepleted (withW p w2) cy = true ∧
      (records (withW p w2) cy).length ≤ (records (withW p w1) cy).length) := by
  have hdne1 : 1 - (withW p w1).dividend_tax ≠ 0 := by
    rw [withW_dividend_tax]
    exact ne_of_gt (by linarith)
  have hdne2 : 1 - (withW p w2).dividend_tax ≠ 0 := by
    rw [withW_dividend_tax]
    exact ne_of_gt (by linarith)
  obtain ⟨rs1, d1, f1, hL1⟩ :=
    simulate_loop_ok_of_ne (withW p w1) cy hdne1 p.years.toNat 1 p.start_capital
  obtain ⟨rs2, d2, f2, hL2⟩ :=
    simulate_loop_ok_of_ne (withW p w2) cy hdne2 p.years.toNat 1 p.start_capital
  have hS1 := simulate_withdrawal_eq_of_loop (withW p w1) cy rs1 d1 f1 hL1
  have hS2 := simulate_withdrawal_eq_of_loop (withW p w2) cy rs2 d2 f2 hL2
  obtain ⟨hff, hdd⟩ :=
    mono_loop p cy w1 w2 ha hr1a hr1b hr2a hr2b hdb hi hw p.years.toNat 1
      p.start_capital p.start_capital (le_refl _) rs1 d1 f1 rs2 d2 f2 hL1 hL2
  rw [finalCapital_eq _ _ _ _ _ hS1, finalCapital_eq _ _ _ _ _ hS2,
    runDepleted_eq _ _ _ _ _ hS1, runDepleted_eq _ _ _ _ _ hS2,
    records_eq _ _ _ _ _ hS1, records_eq _ _ _ _ _ hS2]
  refine ⟨hff, fun hdep => ⟨(hdd hdep).1, ?_⟩⟩
  simp only [List.length_cons]
  exact Nat.succ_le_succ (hdd hdep).2

theorem c5_counterexample :
    ((60:ℚ) < 200) ∧
    runDepleted (withW ⟨100, 0, 0, 0, 0, 0, 0, 0, 5⟩ 60) 2025 = true ∧
    runDepleted (withW ⟨100, 0, 0, 0, 0, 0, 0, 0, 5⟩ 200) 2025 = true ∧
    (records (withW ⟨100, 0, 0, 0, 0, 0, 0, 0, 5⟩ 200) 2025).length <
      (records (withW ⟨100, 0, 0, 0, 0, 0, 0, 0, 5⟩ 60) 2025).length := by
  have h60 : simulate_withdrawal (withW ⟨100, 0, 0, 0, 0, 0, 0, 0, 5⟩ 60) 2025 =
      .ok ([⟨2025, 0, 0, 0, 0, 0, 100⟩, ⟨2026, 0, 0, 0, 60, 60, 40⟩,
            ⟨2027, 0, 0, 0, 40, 40, 0⟩], true, 0) := by
    norm_num [withW, simulate_withdrawal, simulate_loop, progressive_tax]
  have h200 : simulate_withdrawal (withW ⟨100, 0, 0, 0, 0, 0, 0, 0, 5⟩ 200) 2025 =
      .ok ([⟨2025, 0, 0, 0, 0, 0, 100⟩, ⟨2026, 0, 0, 0, 100, 100, 0⟩], true, 0) := by
    norm_num [withW, simulate_withdrawal, simulate_loop, progressive_tax]
  refine ⟨by norm_num, ?_, ?_, ?_⟩
  · rw [runDepleted_eq _ _ _ _ _ h60]
  · rw [runDepleted_eq _ _ _ _ _ h200]
  · rw [records_eq _ _ _ _ _ h60, records_eq _ _ _ _ _ h200]
    simp

theorem c5_witness :
    ((-1:ℚ) ≤ (⟨100, 0, 0, 0, 0, 0, 0, 0, 5⟩ : Params).annual_return) ∧
    ((60:ℚ) ≤ 200) ∧
    finalCapital (withW ⟨100, 0, 0, 0, 0, 0, 0, 0, 5⟩ 200) 2025 ≤
      finalCapital (withW ⟨100, 0, 0, 0, 0, 0, 0, 0, 5⟩ 60) 2025 ∧
    runDepleted (withW ⟨100, 0, 0, 0, 0, 0, 0, 0, 5⟩ 200) 2025 = true ∧
    (records (withW ⟨100, 0, 0, 0, 0, 0, 0, 0, 5⟩ 200) 2025).length ≤
      (records (withW ⟨100, 0, 0, 0, 0, 0, 0, 0, 5⟩ 60) 2025).length := by
  have hdep60 : runDepleted (withW ⟨100, 0, 0, 0, 0, 0, 0, 0, 5⟩ 60) 2025 = true := by
    have h60 : simulate_withdrawal (withW ⟨100, 0, 0, 0, 0, 0, 0, 0, 5⟩ 60) 2025 =
        .ok ([⟨2025, 0, 0, 0, 0, 0, 100⟩, ⟨2026, 0, 0, 0, 60, 60, 40⟩,
              ⟨2027, 0, 0, 0, 40, 40, 0⟩], true, 0) := by
      norm_num [withW, simulate_withdrawal, simulate_loop, progressive_tax]
    rw [runDepleted_eq _ _ _ _ _ h60]
  have h := c5_monotonicity ⟨100, 0, 0, 0, 0, 0, 0, 0, 5⟩ 2025 60 200
    (by norm_num) (by norm_num) (by norm_num) (by norm_num) (by norm_num)
    (by norm_num) (by norm_num) (by norm_num)
  exact ⟨by norm_num, by norm_num, h.1, (h.2 hdep60).1, (h.2 hdep60).2⟩

end DGA
